import Mathlib

/-
  Shallow embedding of `jsongen.py` (class JSONGenerator): a rule-based JSON
  payload generator.  Python's `random` module is modelled by an explicit
  stream of raw natural-number draws; integers are `Int`/`Nat`, Python floats
  are modelled by `ℚ`; code that can raise returns `Except Err`.
-/

namespace JsonGen

/-- Python exception messages (ValueError, KeyError, TypeError, ...). -/
abbrev Err := String

/-- The pseudo-random source: an infinite stream of raw natural draws.
Each primitive call of the `random` module consumes one element. -/
def Rng : Type := Nat → Nat

/-- Consume one raw draw from the stream. -/
def randRaw (g : Rng) : Nat × Rng := (g 0, fun n => g (n + 1))

/-- `random.randint(a, b)` under the precondition `a ≤ b` (all call sites using
this total variant have statically valid bounds): a draw in `[a, b]`. -/
def randintT (a b : Int) (g : Rng) : Int × Rng :=
  let (r, g') := randRaw g
  (a + (r : Int) % (b - a + 1), g')

/-- `random.randint(a, b)`: raises `ValueError` when the range is empty. -/
def pyRandint (a b : Int) (g : Rng) : Except Err (Int × Rng) :=
  if a ≤ b then .ok (randintT a b g)
  else .error "ValueError: empty range for randrange"

/-- `random.randint` applied to possibly non-integral numeric arguments:
Python's `randrange` raises `ValueError` on a non-integral argument
(this happens in the source when `10**(length-1)` is the float `0.1`). -/
def pyRandintQ (a b : ℚ) (g : Rng) : Except Err (Int × Rng) :=
  if a.den = 1 ∧ b.den = 1 then pyRandint a.num b.num g
  else .error "ValueError: non-integer arg for randrange"

/-- `random.random()`: a rational in `[0, 1)` (models the 53-bit float draw). -/
def random01 (g : Rng) : ℚ × Rng :=
  let (r, g') := randRaw g
  (((r % 2 ^ 53 : Nat) : ℚ) / 2 ^ 53, g')

/-- `random.uniform(a, b) = a + (b - a) * random.random()`. -/
def uniformT (a b : ℚ) (g : Rng) : ℚ × Rng :=
  let (r, g') := random01 g
  (a + (b - a) * r, g')

/-- `random.choice(seq)` for a sequence known non-empty, with an (unused
for valid indices) default element: picks the element at a uniform index. -/
def choiceT {α : Type} (l : List α) (dflt : α) (g : Rng) : α × Rng :=
  let (r, g') := randRaw g
  (l.getD (r % l.length) dflt, g')

/-- `random.choice(seq)`: raises `IndexError` on an empty sequence. -/
def pyChoice {α : Type} (l : List α) (g : Rng) : Except Err (α × Rng) :=
  match l with
  | [] => .error "IndexError: cannot choose from an empty sequence"
  | x :: xs => .ok (choiceT (x :: xs) x g)

/-- `random.choices(population, k=k)`: `k` independent draws with replacement. -/
def choicesT {α : Type} (l : List α) (dflt : α) : Nat → Rng → List α × Rng
  | 0, g => ([], g)
  | k + 1, g =>
    let (x, g') := choiceT l dflt g
    let (xs, g'') := choicesT l dflt k g'
    (x :: xs, g'')

/-- `string.ascii_lowercase`. -/
def asciiLowercase : List Char := "abcdefghijklmnopqrstuvwxyz".data

/-- `string.ascii_uppercase`. -/
def asciiUppercase : List Char := "ABCDEFGHIJKLMNOPQRSTUVWXYZ".data

/-- `string.ascii_letters` (lowercase first, as in CPython). -/
def asciiLetters : List Char := asciiLowercase ++ asciiUppercase

/-- `string.digits`. -/
def digitChars : List Char := "0123456789".data

/-- JSON-style runtime values produced by the generator. -/
inductive Value where
  | vNull
  | vBool (b : Bool)
  | vInt (n : Int)
  | vFloat (q : ℚ)
  | vStr (s : String)
  | vList (xs : List Value)
  | vObj (fields : List (String × Value))

/-- Numeric value of a list of decimal digit characters (most significant first). -/
def digitsToNat (l : List Char) : Nat :=
  l.foldl (fun a c => 10 * a + (c.toNat - 48)) 0

/-- `int(s)` for a string: optional sign followed by decimal digits (the
source only ever applies it to such strings); anything else raises. -/
def pyIntOfStr (s : String) : Except Err Int :=
  let core : List Char → Except Err Nat := fun cs =>
    if cs ≠ [] ∧ cs.all Char.isDigit then .ok (digitsToNat cs)
    else .error "ValueError: invalid literal for int()"
  match s.data with
  | '-' :: rest => (core rest).map (fun n => -(n : Int))
  | '+' :: rest => (core rest).map (fun n => (n : Int))
  | cs => (core cs).map (fun n => (n : Int))

/-- The unsigned part of a decimal literal `digits [ . digits ]`. -/
def parseUnsigned (t : List Char) : Option ℚ :=
  match t.dropWhile Char.isDigit with
  | [] =>
    if t.takeWhile Char.isDigit ≠ [] then
      some ((digitsToNat (t.takeWhile Char.isDigit) : Nat) : ℚ)
    else none
  | '.' :: fp =>
    if fp.all Char.isDigit ∧ (t.takeWhile Char.isDigit ≠ [] ∨ fp ≠ []) then
      some (((digitsToNat (t.takeWhile Char.isDigit) : Nat) : ℚ) +
        ((digitsToNat fp : Nat) : ℚ) / 10 ^ fp.length)
    else none
  | _ => none

/-- `float(s)` for a decimal literal `[sign] digits [ . digits ]` (the subset
of Python float syntax that can reach this code); anything else raises. -/
def parseDecimal (cs : List Char) : Option ℚ :=
  match cs with
  | '-' :: rest => (parseUnsigned rest).map (fun q => -q)
  | '+' :: rest => parseUnsigned rest
  | _ => parseUnsigned cs

/-- `float(s)` on a string, raising on anything that is not a decimal literal. -/
def pyFloatOfStr (s : String) : Except Err ℚ :=
  match parseDecimal s.data with
  | some q => .ok q
  | none => .error "ValueError: could not convert string to float"

/-- Truncation toward zero, as Python's `int()` applied to a float. -/
def truncQ (q : ℚ) : Int := q.num.tdiv (q.den : Int)

/-- Round half to even (Python's `round`) of a rational to an integer. -/
def roundHalfEven (x : ℚ) : Int :=
  let f := ⌊x⌋
  let r := x - (f : ℚ)
  if r < 1 / 2 then f
  else if 1 / 2 < r then f + 1
  else if f % 2 = 0 then f else f + 1

/-- `round(x, 2)`: round to two decimal places, half to even. -/
def pyRound2 (x : ℚ) : ℚ := (roundHalfEven (x * 100) : ℚ) / 100

/-- Decimal digits of the fractional part `q` (with `0 ≤ q < 1`), up to `fuel`
digits, dropping once the remainder is zero. -/
def fracDigits : Nat → ℚ → List Char
  | 0, _ => []
  | fuel + 1, q =>
    if q = 0 then []
    else
      let q10 := q * 10
      let d := ⌊q10⌋
      Nat.digitChar d.toNat :: fracDigits fuel (q10 - (d : ℚ))

/-- `str(x)` for a float value: Python renders the shortest decimal form; the
model renders the exact finite decimal expansion (up to 40 digits), always
keeping at least one fractional digit, e.g. `3.0`, `3.14159`. -/
def renderFloat (q : ℚ) : String :=
  let sign := if q < 0 then "-" else ""
  let a := |q|
  let ip := ⌊a⌋
  let fp := a - (ip : ℚ)
  let fracs := if fp = 0 then "0" else String.mk (fracDigits 40 fp)
  sign ++ toString ip.toNat ++ "." ++ fracs

/-- `str(value)` with a structural-recursion fuel for the nested list
case (Python recurses without bound; any `fuel` at least the nesting depth
of the value renders identically).  Collection cases follow Python's
bracketed, comma-joined form with `repr` of the elements (strings quoted);
the dict rendering is abbreviated, being unreachable from every schema
rule (coercion passes collections through for the array/object target
types without calling `str`). -/
def pyStrFuel : Nat → Value → String
  | _, .vNull => "None"
  | _, .vBool true => "True"
  | _, .vBool false => "False"
  | _, .vInt n => toString n
  | _, .vFloat q => renderFloat q
  | _, .vStr s => s
  | fuel + 1, .vList xs =>
    "[" ++ String.intercalate ", " (xs.map (fun v =>
      match v with
      | .vStr s => "'" ++ s ++ "'"
      | v => pyStrFuel fuel v)) ++ "]"
  | 0, .vList _ => "[...]"
  | _, .vObj _ => "\x7b...\x7d"

/-- `str(value)`. -/
def pyStr (v : Value) : String := pyStrFuel 1000 v

/-- `int(float(str(value)))`, the coercion used for target type `int`,
computed per constructor: `str` then `float` round-trips an int or float
exactly (Python floats re-parse from their repr), a string is parsed as a
decimal literal, and every other case raises. -/
def pyIntOfValue : Value → Except Err Int
  | .vInt n => .ok n
  | .vFloat q => .ok (truncQ q)
  | .vStr s => (pyFloatOfStr s).map truncQ
  | _ => .error "ValueError: could not convert string to float"

/-- `float(value)`: ints, floats and bools convert, strings are parsed,
anything else raises `TypeError`. -/
def pyFloatOfValue : Value → Except Err ℚ
  | .vInt n => .ok (n : ℚ)
  | .vFloat q => .ok q
  | .vBool b => .ok (if b then 1 else 0)
  | .vStr s => pyFloatOfStr s
  | _ => .error "TypeError: float() argument must be a string or a real number"

/-- `JSONGenerator._convert_type(value, target_type)`. For `bool`, Python's
`isinstance(value, (int, float))` also covers `bool` values (bool is an int
subclass), so a numeric-or-bool value becomes its truthiness and everything
else passes through unchanged. -/
def convert_type (value : Value) (target_type : String) : Except Err Value :=
  if target_type = "int" then (pyIntOfValue value).map .vInt
  else if target_type = "float" ∨ target_type = "double" then
    (pyFloatOfValue value).map .vFloat
  else if target_type = "bool" then
    .ok (match value with
      | .vInt n => .vBool (n ≠ 0)
      | .vFloat q => .vBool (q ≠ 0)
      | .vBool b => .vBool b
      | v => v)
  else if target_type = "str" then .ok (.vStr (pyStr value))
  else .ok value

/-! ## Rule parsing (`builtin_patterns` and `_parse_rule`)

Each pattern `@\x7b...\x7dkind` is matched with `re.match` (prefix, not
full-string) semantics.  Since no pattern payload may contain `}`, a regex
match always splits the input at the *first* `}` after the `@\x7b` opener;
the match functions below are the direct transcription of that behaviour. -/

/-- Split a character list at its first `'}'`: returns the characters before
it and the characters after it, or `none` when there is no `'}'`. -/
def breakAtRBrace : List Char → Option (List Char × List Char)
  | [] => none
  | c :: rest =>
    if c = '}' then some ([], rest)
    else (breakAtRBrace rest).map (fun p => (c :: p.1, p.2))

/-- Payload and trailing text of a `@\x7b...\x7d`-prefixed rule string. -/
def openerSplit (rule : String) : Option (List Char × List Char) :=
  match rule.data with
  | '@' :: '{' :: rest => breakAtRBrace rest
  | _ => none

/-- Pattern `'unique': r'@\x7b(\d+)\x7dunique'` under `re.match`. -/
def matchUnique (rule : String) : Option (List String) :=
  match openerSplit rule with
  | some (payload, after) =>
    if payload ≠ [] ∧ payload.all Char.isDigit ∧ "unique".data.isPrefixOf after
    then some [String.mk payload] else none
  | none => none

/-- Pattern `'range': r'@\x7b(\d+)-(\d+)\x7drange'` under `re.match`. -/
def matchRange (rule : String) : Option (List String) :=
  match openerSplit rule with
  | some (payload, after) =>
    match payload.dropWhile Char.isDigit with
    | '-' :: d2 =>
      if payload.takeWhile Char.isDigit ≠ [] ∧ d2 ≠ [] ∧
          d2.all Char.isDigit ∧ "range".data.isPrefixOf after
      then some [String.mk (payload.takeWhile Char.isDigit), String.mk d2]
      else none
    | _ => none
  | none => none

/-- Pattern `'length': r'@\x7b(\d+)\x7dlength'` under `re.match`. -/
def matchLength (rule : String) : Option (List String) :=
  match openerSplit rule with
  | some (payload, after) =>
    if payload ≠ [] ∧ payload.all Char.isDigit ∧ "length".data.isPrefixOf after
    then some [String.mk payload] else none
  | none => none

/-- Pattern `'choice': r'@\x7b([^}]+)\x7dchoice'` under `re.match`. -/
def matchChoice (rule : String) : Option (List String) :=
  match openerSplit rule with
  | some (payload, after) =>
    if payload ≠ [] ∧ "choice".data.isPrefixOf after
    then some [String.mk payload] else none
  | none => none

/-- Pattern `'format': r'@\x7b([^}]+)\x7dformat'` under `re.match`. -/
def matchFormat (rule : String) : Option (List String) :=
  match openerSplit rule with
  | some (payload, after) =>
    if payload ≠ [] ∧ "format".data.isPrefixOf after
    then some [String.mk payload] else none
  | none => none

/-- The `builtin_patterns` table in its dict insertion order, paired with the
kind name each pattern reports. -/
def builtin_patterns : List (String × (String → Option (List String))) :=
  [("unique", matchUnique), ("range", matchRange), ("length", matchLength),
   ("choice", matchChoice), ("format", matchFormat)]

/-- `rule.startswith('@\x7b')`. -/
def startsWithOpener (rule : String) : Bool :=
  "@\x7b".data.isPrefixOf rule.data

/-- `_parse_rule` with the pattern dictionary iterated in the order given
by `order`: if the rule does not start with `@\x7b` it is returned
unchanged with empty params; otherwise the first entry whose pattern
matches wins (`return pattern_name, match.groups()`), and a
`@\x7b`-prefixed string matched by no pattern falls back unchanged. -/
def parse_rule_with (order : List (String × (String → Option (List String))))
    (rule : String) : String × List String :=
  if startsWithOpener rule then
    match order.findSome? (fun km => (km.2 rule).map (fun ps => (km.1, ps))) with
    | some r => r
    | none => (rule, [])
  else (rule, [])

/-- `JSONGenerator._parse_rule(rule)`: the loop over
`self.builtin_patterns.items()` in dict insertion order. -/
def parse_rule (rule : String) : String × List String :=
  parse_rule_with builtin_patterns rule

/-! ## Field configuration and generator state -/

mutual
/-- A schema field configuration: `type` (default `"str"` when absent from
the dict), `rule` (default `""`), and the array/object substructure keys. -/
inductive FieldConfig where
  | mk (type : String) (rule : String) (items : ItemsSpec)
       (length : Option Nat) (properties : PropList)

/-- The optional `items` sub-configuration of an array field. -/
inductive ItemsSpec where
  | noItems
  | items (cfg : FieldConfig)

/-- The `properties` mapping of an object field, in declaration order. -/
inductive PropList where
  | nil
  | cons (key : String) (cfg : FieldConfig) (rest : PropList)
end

/-- Declared target type of a field. -/
def FieldConfig.type : FieldConfig → String
  | .mk t _ _ _ _ => t

/-- Rule string of a field. -/
def FieldConfig.rule : FieldConfig → String
  | .mk _ r _ _ _ => r

/-- Element configuration of an array field. -/
def FieldConfig.items : FieldConfig → ItemsSpec
  | .mk _ _ i _ _ => i

/-- Declared element count of an array field. -/
def FieldConfig.length : FieldConfig → Option Nat
  | .mk _ _ _ l _ => l

/-- Nested properties of an object field. -/
def FieldConfig.properties : FieldConfig → PropList
  | .mk _ _ _ _ p => p

mutual
/-- Nesting depth of a field configuration (at least 1). -/
def FieldConfig.depth : FieldConfig → Nat
  | .mk _ _ items _ props => (ItemsSpec.depth items).max (PropList.depth props) + 1

/-- Nesting depth below an optional `items` entry. -/
def ItemsSpec.depth : ItemsSpec → Nat
  | .noItems => 0
  | .items c => FieldConfig.depth c

/-- Greatest nesting depth among an object's properties. -/
def PropList.depth : PropList → Nat
  | .nil => 0
  | .cons _ c rest => (FieldConfig.depth c).max (PropList.depth rest)
end

/-- A scalar field configuration (no array/object substructure). -/
def scalarCfg (type rule : String) : FieldConfig :=
  .mk type rule .noItems none .nil

/-- A zero-argument value producer (custom or built-in rule body): it may
read the clock (`now`, a Unix timestamp in seconds) and draw from the
random source, and may raise. -/
def GenFun : Type := Nat → Rng → Except Err (Value × Rng)

/-- The mutable state of one `JSONGenerator` instance, together with the
ambient random stream and clock. -/
structure GenState where
  schema : List (String × FieldConfig)
  custom_rules : List (String × GenFun)
  file_data : List (String × List String)
  generated_values : List (String × List Int)
  rng : Rng
  now : Nat

/-- `self.generated_values[field_name]`, the empty set when absent. -/
def usedValues (st : GenState) (field_name : String) : List Int :=
  (st.generated_values.lookup field_name).getD []

/-- Record a freshly issued unique value under `field_name`. -/
def recordValue (m : List (String × List Int)) (field_name : String)
    (v : Int) : List (String × List Int) :=
  match m with
  | [] => [(field_name, [v])]
  | (k, vs) :: rest =>
    if k = field_name then (k, v :: vs) :: rest
    else (k, vs) :: recordValue rest field_name v

/-- The state after recording a freshly issued unique value: the stream
advanced and the value added under its field path. -/
def recordState (st : GenState) (path : String) (v : Int) (g' : Rng) : GenState :=
  { st with rng := g', generated_values := recordValue st.generated_values path v }

/-- `set_schema(schema)`: stores the schema and resets unique tracking
(`self.generated_values = {}`); nothing else is touched. -/
def set_schema (schema : List (String × FieldConfig)) (st : GenState) : GenState :=
  { st with schema := schema, generated_values := [] }

/-- `add_custom_rule(name, generator)`. -/
def add_custom_rule (name : String) (f : GenFun) (st : GenState) : GenState :=
  { st with custom_rules := (name, f) :: st.custom_rules }

/-! ## Uniqueness tracker (`_generate_unique_number`) -/

/-- Lower bound of the value space: `10**(digits-1) if digits > 1 else 0`. -/
def uniqueMin (digits : Nat) : Int := if digits > 1 then 10 ^ (digits - 1) else 0

/-- Upper bound of the value space: `10**digits - 1`. -/
def uniqueMax (digits : Nat) : Int := 10 ^ digits - 1

/-- The bounded retry loop (`for _ in range(1000)`): draw, and retry while
the draw collides with an already-recorded value.  Returns the first
non-colliding draw, or `none` with the advanced stream when the budget is
exhausted. -/
def drawLoop (fuel : Nat) (mn mx : Int) (used : List Int) (g : Rng) :
    Option Int × Rng :=
  match fuel with
  | 0 => (none, g)
  | f + 1 =>
    if (randintT mn mx g).1 ∈ used then drawLoop f mn mx used (randintT mn mx g).2
    else (some (randintT mn mx g).1, (randintT mn mx g).2)

/-- `int(str(p) + str(int(timestamp))[-2:])`: numeric concatenation of a
prefix with the last two decimal digits of the timestamp (timestamps are
at least two digits long). -/
def concatTimestamp (p : Nat) (ts : Nat) : Int := (p * 100 + ts % 100 : Nat)

/-- `JSONGenerator._generate_unique_number(digits, field_name)`: up to 1000
uniform draws from the digit-width space, returning (and recording) the
first one not yet issued for `field_name`; on exhaustion, falls back to a
truncated random prefix concatenated with a timestamp suffix, recorded
nowhere.  The fallback's `randint(min_val, max_val // 10)` raises when that
range is empty. -/
def unique_number (digits : Nat) (field_name : String) (st : GenState) :
    Except Err (Int × GenState) :=
  let used := usedValues st field_name
  let mn := uniqueMin digits
  let mx := uniqueMax digits
  match drawLoop 1000 mn mx used st.rng with
  | (some v, g') =>
    .ok (v, { st with rng := g',
                      generated_values := recordValue st.generated_values field_name v })
  | (none, g') => do
    let (p, g'') ← pyRandint mn (Int.fdiv mx 10) g'
    .ok (concatTimestamp p.toNat st.now, { st with rng := g'' })

/-! ## Format templater (`_apply_format`) -/

/-- `s.replace(old, new)` specialized to a single-character pattern and a
single-character replacement, as `_apply_format` uses it: a character map. -/
def pyReplace (s : List Char) (old new : Char) : List Char :=
  s.map (fun c => if c = old then new else c)

/-- `JSONGenerator._apply_format(format_str)`: one digit is drawn and
substituted for every `#`, one uppercase letter for every `A`, one
lowercase letter for every `a`, one letter for every `?`, in that order.
Each of the four draws happens exactly once, whether or not the
placeholder occurs. -/
def apply_format (format_str : String) (g : Rng) : String × Rng :=
  let p1 := randintT 0 9 g
  let r1 := pyReplace format_str.data '#' (Nat.digitChar p1.1.toNat)
  let p2 := choiceT asciiUppercase 'A' p1.2
  let r2 := pyReplace r1 'A' p2.1
  let p3 := choiceT asciiLowercase 'a' p2.2
  let r3 := pyReplace r2 'a' p3.1
  let p4 := choiceT asciiLetters 'a' p3.2
  let r4 := pyReplace r3 '?' p4.1
  (String.mk r4, p4.2)

/-! ## Built-in semantic generators (the literal-table rules) -/

/-- Build a string from characters. -/
def mkStr (cs : List Char) : String := String.mk cs

/-- `str.strip()`: drop leading and trailing whitespace. -/
def pyStrip (s : String) : String :=
  mkStr (((s.data.dropWhile Char.isWhitespace).reverse.dropWhile
    Char.isWhitespace).reverse)

/-- `s.split(sep)` for a single-character separator: never empty. -/
def pySplit (sep : Char) (cs : List Char) : List String :=
  let rec go : List Char → List Char → List String
    | [], acc => [mkStr acc.reverse]
    | c :: rest, acc =>
      if c = sep then mkStr acc.reverse :: go rest [] else go rest (c :: acc)
  go cs []

/-- Zero-pad a natural to two digits. -/
def pad2 (n : Nat) : String := if n < 10 then "0" ++ toString n else toString n

/-- Civil date from days since the Unix epoch (Gregorian calendar). -/
def civilFromDays (z0 : Int) : Int × Nat × Nat :=
  let z := z0 + 719468
  let era := Int.fdiv z 146097
  let doe := (z - era * 146097).toNat
  let yoe := (doe - doe / 1460 + doe / 36524 - doe / 146096) / 365
  let doy := doe - (365 * yoe + yoe / 4 - yoe / 100)
  let mp := (5 * doy + 2) / 153
  let d := doy - (153 * mp + 2) / 5 + 1
  let m := if mp < 10 then mp + 3 else mp - 9
  let y := (yoe : Int) + era * 400 + (if m ≤ 2 then 1 else 0)
  (y, m, d)

/-- ISO `YYYY-MM-DD` of a day count since the Unix epoch. -/
def isoDateFromDays (z : Int) : String :=
  let (y, m, d) := civilFromDays z
  toString y.toNat ++ "-" ++ pad2 m ++ "-" ++ pad2 d

/-- Hexadecimal digits of `n`, zero-padded to `len` digits. -/
def hexPad (len : Nat) (n : Nat) : String :=
  mkStr ((List.range len).reverse.map (fun i => Nat.digitChar (n / 16 ^ i % 16)))

/-- `_generate_email`. -/
def genEmail : GenFun := fun _ g => do
  let (k, g) ← pyRandint 5 12 g
  let (u, g) := choicesT (asciiLowercase ++ digitChars) 'a' k.toNat g
  let (d, g) ← pyChoice ["gmail.com", "yahoo.com", "hotmail.com",
    "outlook.com", "company.com"] g
  .ok (.vStr (mkStr u ++ "@" ++ d), g)

/-- `_generate_username`. -/
def genUsername : GenFun := fun _ g => do
  let (k, g) ← pyRandint 5 15 g
  let (u, g) := choicesT (asciiLowercase ++ digitChars ++ ['_']) 'a' k.toNat g
  .ok (.vStr (mkStr u), g)

/-- `_generate_password`. -/
def genPassword : GenFun := fun _ g => do
  let (k, g) ← pyRandint 8 16 g
  let (u, g) := choicesT (asciiLetters ++ digitChars ++ "!@#$%^&*".data) 'a' k.toNat g
  .ok (.vStr (mkStr u), g)

/-- `_generate_phone`. -/
def genPhone : GenFun := fun _ g => do
  let (a, g) ← pyRandint 200 999 g
  let (b, g) ← pyRandint 200 999 g
  let (c, g) ← pyRandint 1000 9999 g
  .ok (.vStr ("+1-" ++ toString a ++ "-" ++ toString b ++ "-" ++ toString c), g)

/-- `_generate_url`. -/
def genUrl : GenFun := fun _ g => do
  let (d, g) ← pyChoice ["example.com", "test.org", "demo.net", "sample.io"] g
  let (p, g) ← pyChoice ["", "/api", "/users", "/products", "/about", "/contact"] g
  .ok (.vStr ("https://www." ++ d ++ p), g)

/-- `_generate_uuid`: `uuid.uuid4()` draws 122 random bits (from the OS
entropy source, modelled here by the stream) and formats them as
8-4-4-4-12 hex digits with version nibble 4 and variant bits 10. -/
def genUuid : GenFun := fun _ g => do
  let (r, g) := randRaw g
  let s := hexPad 8 (r % 16 ^ 8) ++ "-" ++ hexPad 4 (r / 16 ^ 8 % 16 ^ 4) ++
    "-4" ++ hexPad 3 (r / 16 ^ 12 % 16 ^ 3) ++ "-" ++
    hexPad 1 (8 + r / 16 ^ 15 % 4) ++ hexPad 3 (r / 16 ^ 17 % 16 ^ 3) ++ "-" ++
    hexPad 12 (r / 16 ^ 20 % 16 ^ 12)
  .ok (.vStr s, g)

/-- First names table shared by `_generate_name` and `_generate_firstname`. -/
def firstNamesShort : List String :=
  ["John", "Jane", "Mike", "Sarah", "David", "Lisa", "Chris", "Anna", "Tom", "Mary"]

/-- Last names table. -/
def lastNames : List String :=
  ["Smith", "Johnson", "Williams", "Brown", "Jones", "Garcia", "Miller",
   "Davis", "Wilson", "Moore"]

/-- `_generate_name`. -/
def genName : GenFun := fun _ g => do
  let (f, g) ← pyChoice firstNamesShort g
  let (l, g) ← pyChoice lastNames g
  .ok (.vStr (f ++ " " ++ l), g)

/-- `_generate_firstname`. -/
def genFirstname : GenFun := fun _ g => do
  let (f, g) ← pyChoice (firstNamesShort ++ ["Alex", "Emma"]) g
  .ok (.vStr f, g)

/-- `_generate_lastname`. -/
def genLastname : GenFun := fun _ g => do
  let (l, g) ← pyChoice lastNames g
  .ok (.vStr l, g)

/-- `_generate_company`. -/
def genCompany : GenFun := fun _ g => do
  let (p, g) ← pyChoice ["Tech", "Global", "Smart", "Digital", "Advanced",
    "Modern", "Future"] g
  let (s, g) ← pyChoice ["Solutions", "Systems", "Corp", "Industries",
    "Technologies", "Innovations", "Services"] g
  .ok (.vStr (p ++ " " ++ s), g)

/-- `_generate_address`. -/
def genAddress : GenFun := fun _ g => do
  let (n, g) ← pyRandint 1 9999 g
  let (s, g) ← pyChoice ["Main St", "Oak Ave", "Park Rd", "First St",
    "Second Ave", "Elm St", "Maple Dr"] g
  .ok (.vStr (toString n ++ " " ++ s), g)

/-- `_generate_city`. -/
def genCity : GenFun := fun _ g => do
  let (c, g) ← pyChoice ["New York", "Los Angeles", "Chicago", "Houston",
    "Phoenix", "Philadelphia", "San Antonio"] g
  .ok (.vStr c, g)

/-- `_generate_country`. -/
def genCountry : GenFun := fun _ g => do
  let (c, g) ← pyChoice ["USA", "Canada", "UK", "Germany", "France", "Japan",
    "Australia", "Brazil"] g
  .ok (.vStr c, g)

/-- `_generate_zipcode`. -/
def genZipcode : GenFun := fun _ g => do
  let (n, g) ← pyRandint 10000 99999 g
  .ok (.vStr (toString n), g)

/-- `_generate_timestamp`: `int(datetime.now().timestamp())`. -/
def genTimestamp : GenFun := fun now g => .ok (.vInt now, g)

/-- `_generate_date`: a uniformly random ISO date between 2020-01-01
(epoch day 18262) and today; raises if the clock is before 2020. -/
def genDate : GenFun := fun now g => do
  let delta := Int.fdiv (now : Int) 86400 - 18262
  let (rd, g) ← pyRandint 0 delta g
  .ok (.vStr (isoDateFromDays (18262 + rd)), g)

/-- `_generate_time`. -/
def genTime : GenFun := fun _ g => do
  let (h, g) ← pyRandint 0 23 g
  let (m, g) ← pyRandint 0 59 g
  let (s, g) ← pyRandint 0 59 g
  .ok (.vStr (pad2 h.toNat ++ ":" ++ pad2 m.toNat ++ ":" ++ pad2 s.toNat), g)

/-- `_generate_datetime`: `datetime.now().isoformat()` to second precision
(the sub-second part of the clock is not modelled). -/
def genDatetime : GenFun := fun now g =>
  .ok (.vStr (isoDateFromDays (Int.fdiv (now : Int) 86400) ++ "T" ++
    pad2 (now % 86400 / 3600) ++ ":" ++ pad2 (now % 3600 / 60) ++ ":" ++
    pad2 (now % 60)), g)

/-- `_generate_age`. -/
def genAge : GenFun := fun _ g => do
  let (n, g) ← pyRandint 18 85 g
  .ok (.vInt n, g)

/-- `_generate_id`. -/
def genId : GenFun := fun _ g => do
  let (n, g) ← pyRandint 1 999999 g
  .ok (.vInt n, g)

/-- `_generate_price`. -/
def genPrice : GenFun := fun _ g => do
  let (q, g) := uniformT (999 / 100) (99999 / 100) g
  .ok (.vFloat (pyRound2 q), g)

/-- `_generate_rating`: `round(uniform(1.0, 5.0), 1)`. -/
def genRating : GenFun := fun _ g => do
  let (q, g) := uniformT 1 5 g
  .ok (.vFloat ((roundHalfEven (q * 10) : ℚ) / 10), g)

/-- `_generate_score`. -/
def genScore : GenFun := fun _ g => do
  let (n, g) ← pyRandint 0 100 g
  .ok (.vInt n, g)

/-- `_generate_title`. -/
def genTitle : GenFun := fun _ g => do
  let (a, g) ← pyChoice ["Amazing", "Incredible", "Awesome", "Great",
    "Fantastic", "Perfect", "Ultimate"] g
  let (n, g) ← pyChoice ["Product", "Service", "Solution", "Tool", "System",
    "Platform", "Application"] g
  .ok (.vStr (a ++ " " ++ n), g)

/-- `_generate_description`. -/
def genDescription : GenFun := fun _ g => do
  let (d, g) ← pyChoice
    ["This is a high-quality product designed for modern users.",
     "An innovative solution that meets all your needs.",
     "Professional service with excellent customer support.",
     "State-of-the-art technology for better performance.",
     "Reliable and efficient system for everyday use."] g
  .ok (.vStr d, g)

/-- Sentence table of `_generate_paragraph`. -/
def loremSentences : List String :=
  ["Lorem ipsum dolor sit amet, consectetur adipiscing elit.",
   "Sed do eiusmod tempor incididunt ut labore et dolore magna aliqua.",
   "Ut enim ad minim veniam, quis nostrud exercitation ullamco.",
   "Duis aute irure dolor in reprehenderit in voluptate velit esse."]

/-- `_generate_paragraph`: joins `randint(2, 4)` sentence choices. -/
def genParagraph : GenFun := fun _ g => do
  let (k, g) ← pyRandint 2 4 g
  let (ss, g) := choicesT loremSentences "" k.toNat g
  .ok (.vStr (String.intercalate " " ss), g)

/-- `_generate_sentence`. -/
def genSentence : GenFun := fun _ g => do
  let (s, g) ← pyChoice ["The system", "This product", "Our solution",
    "The application"] g
  let (v, g) ← pyChoice ["provides", "offers", "delivers", "ensures",
    "guarantees"] g
  let (o, g) ← pyChoice ["excellent performance", "great results",
    "outstanding quality", "reliable service"] g
  .ok (.vStr (s ++ " " ++ v ++ " " ++ o ++ "."), g)

/-- `_generate_word`. -/
def genWord : GenFun := fun _ g => do
  let (w, g) ← pyChoice ["example", "sample", "test", "demo", "data",
    "value", "item", "element"] g
  .ok (.vStr w, g)

/-- `_generate_bool`. -/
def genBool : GenFun := fun _ g => do
  let (b, g) ← pyChoice [true, false] g
  .ok (.vBool b, g)

/-- `_generate_active`. -/
def genActive : GenFun := fun _ g => do
  let (b, g) ← pyChoice [true, false] g
  .ok (.vBool b, g)

/-- The `builtin_rules` registry of `_init_builtin_rules`. -/
def builtin_rules : List (String × GenFun) :=
  [("email", genEmail), ("username", genUsername), ("password", genPassword),
   ("phone", genPhone), ("url", genUrl), ("uuid", genUuid), ("name", genName),
   ("firstname", genFirstname), ("lastname", genLastname),
   ("company", genCompany), ("address", genAddress), ("city", genCity),
   ("country", genCountry), ("zipcode", genZipcode),
   ("timestamp", genTimestamp), ("date", genDate), ("time", genTime),
   ("datetime", genDatetime), ("age", genAge), ("id", genId),
   ("price", genPrice), ("rating", genRating), ("score", genScore),
   ("title", genTitle), ("description", genDescription),
   ("paragraph", genParagraph), ("sentence", genSentence), ("word", genWord),
   ("bool", genBool), ("active", genActive)]

/-! ## Value resolver (`_generate_value`) -/

/-- `params[0]` where `params` is the parse result: on the empty fallback
params this raises (Python indexes the empty dict `\x7b\x7d` and gets a
`KeyError`). -/
def paramAt0 (params : List String) : Except Err String :=
  match params with
  | [] => .error "KeyError: 0"
  | p :: _ => .ok p

/-- `min_val, max_val = params`: tuple unpacking of exactly two parameters. -/
def unpack2 (params : List String) : Except Err (String × String) :=
  match params with
  | [a, b] => .ok (a, b)
  | _ => .error "ValueError: not enough values to unpack"

/-- The `range` branch of `_generate_value`: `randint` for type `int`,
`uniform` for `float`/`double`, `randint` otherwise; the parameter
substrings are parsed with `int()` resp. `float()`. -/
def rangeValue (field_type : String) (min_val max_val : String) (st : GenState) :
    Except Err (Value × GenState) :=
  if field_type = "int" then do
    let a ← pyIntOfStr min_val
    let b ← pyIntOfStr max_val
    let (v, g') ← pyRandint a b st.rng
    .ok (.vInt v, { st with rng := g' })
  else if field_type = "float" ∨ field_type = "double" then do
    let a ← pyFloatOfStr min_val
    let b ← pyFloatOfStr max_val
    let (q, g') := uniformT a b st.rng
    .ok (.vFloat q, { st with rng := g' })
  else do
    let a ← pyIntOfStr min_val
    let b ← pyIntOfStr max_val
    let (v, g') ← pyRandint a b st.rng
    .ok (.vInt v, { st with rng := g' })

/-- The `length` branch of `_generate_value`: a random alphabetic string of
that length for type `str`; otherwise `randint(10**(length-1), 10**length - 1)`,
whose first argument is the non-integral float `0.1` when `length = 0`
(Python's `10 ** -1`), making `randint` raise. -/
def lengthValue (field_type : String) (length : Int) (st : GenState) :
    Except Err (Value × GenState) :=
  if field_type = "str" then
    let (cs, g') := choicesT asciiLetters 'a' length.toNat st.rng
    .ok (.vStr (mkStr cs), { st with rng := g' })
  else do
    let (v, g') ← pyRandintQ ((10 : ℚ) ^ (length - 1)) ((10 : ℚ) ^ length - 1) st.rng
    .ok (.vInt v, { st with rng := g' })

/-- The `choice` branch of `_generate_value`: split the payload on commas,
pick one option, strip surrounding whitespace. -/
def choiceValue (payload : String) (st : GenState) :
    Except Err (Value × GenState) := do
  let choices := pySplit ',' payload.data
  let (c, g') ← pyChoice choices st.rng
  .ok (.vStr (pyStrip c), { st with rng := g' })

/-- `JSONGenerator._generate_default_value(field_type)`: the type-appropriate
fallback draw (`None` for unknown types). -/
def generate_default_value (field_type : String) (g : Rng) : Value × Rng :=
  if field_type = "int" then
    (.vInt (randintT 1 1000 g).1, (randintT 1 1000 g).2)
  else if field_type = "float" ∨ field_type = "double" then
    (.vFloat (pyRound2 (uniformT 0 100 g).1), (uniformT 0 100 g).2)
  else if field_type = "bool" then
    (.vBool (choiceT [true, false] true g).1, (choiceT [true, false] true g).2)
  else if field_type = "str" then
    (.vStr (mkStr (choicesT asciiLetters 'a' 8 g).1),
      (choicesT asciiLetters 'a' 8 g).2)
  else (.vNull, g)

/-- The dispatch cascade of `_generate_value` for a scalar field, before
type coercion: custom rules, then built-ins, then the five parametric
kinds, then non-empty file-backed dictionaries, then the type default. -/
def rawScalarValue (field_type : String) (rule_type : String)
    (params : List String) (rule : String) (field_name : String)
    (st : GenState) : Except Err (Value × GenState) :=
  match st.custom_rules.lookup rule_type with
  | some f => (f st.now st.rng).map (fun vg => (vg.1, { st with rng := vg.2 }))
  | none =>
  match builtin_rules.lookup rule_type with
  | some f => (f st.now st.rng).map (fun vg => (vg.1, { st with rng := vg.2 }))
  | none =>
  if rule_type = "unique" then do
    let p0 ← paramAt0 params
    let digits ← pyIntOfStr p0
    let (v, st') ← unique_number digits.toNat field_name st
    .ok (.vInt v, st')
  else if rule_type = "range" then do
    let (mns, mxs) ← unpack2 params
    rangeValue field_type mns mxs st
  else if rule_type = "length" then do
    let p0 ← paramAt0 params
    let len ← pyIntOfStr p0
    lengthValue field_type len st
  else if rule_type = "choice" then do
    let p0 ← paramAt0 params
    choiceValue p0 st
  else if rule_type = "format" then do
    let p0 ← paramAt0 params
    let (s, g') := apply_format p0 st.rng
    .ok (.vStr s, { st with rng := g' })
  else
    if ((st.file_data.lookup rule).getD []).isEmpty then
      .ok ((generate_default_value field_type st.rng).1,
        { st with rng := (generate_default_value field_type st.rng).2 })
    else
      (pyChoice ((st.file_data.lookup rule).getD []) st.rng).map
        (fun p => (.vStr p.1, { st with rng := p.2 }))

/-- `_generate_value` restricted to a scalar (non-array, non-object) field:
parse the rule, run the dispatch cascade, coerce to the declared type. -/
def genScalar (field_type rule : String) (field_name : String)
    (st : GenState) : Except Err (Value × GenState) :=
  (rawScalarValue field_type (parse_rule rule).1 (parse_rule rule).2 rule
      field_name st).bind
    (fun p => (convert_type p.1 field_type).map (fun v => (v, p.2)))

/-- Elements of an array field: element `i` (and onwards, `n` elements in
total) resolved by `f` under the path `f"\x7bfield_name\x7d_\x7bi\x7d"`. -/
def genArraySeq (f : String → GenState → Except Err (Value × GenState))
    (base : String) : Nat → Nat → GenState → Except Err (List Value × GenState)
  | _, 0, st => .ok ([], st)
  | i, n + 1, st => do
    let (v, st') ← f (base ++ "_" ++ toString i) st
    let (vs, st'') ← genArraySeq f base (i + 1) n st'
    .ok (v :: vs, st'')

/-- Properties of an object field: each property resolved by `f` under the
path `f"\x7bfield_name\x7d.\x7bkey\x7d"`. -/
def genPropSeq (f : FieldConfig → String → GenState → Except Err (Value × GenState))
    (base : String) : PropList → GenState →
      Except Err (List (String × Value) × GenState)
  | .nil, st => .ok ([], st)
  | .cons key pc rest, st => do
    let (v, st') ← f pc (base ++ "." ++ key) st
    let (vs, st'') ← genPropSeq f base rest st'
    .ok ((key, v) :: vs, st'')

/-- `JSONGenerator._generate_value(field_config, field_name)`, with an
explicit structural-recursion fuel: one unit of fuel is spent per nesting
level, so any `fuel ≥ cfg.depth` behaves exactly as the Python recursion;
the out-of-fuel branch is unreachable from `generate_value` below.  Note
that Python's `field_config.get('length', random.randint(1, 5))` evaluates
(and so draws) the default even when `length` is declared, and that an
absent `items` defaults to the scalar configuration
`\x7b'type': 'str', 'rule': 'word'\x7d`. -/
def genValueFuel : Nat → FieldConfig → String → GenState →
    Except Err (Value × GenState)
  | 0, _, _, _ => .error "RecursionError"
  | fuel + 1, .mk type rule items len props, field_name, st =>
    if type = "array" then
      let (dflt, g1) := randintT 1 5 st.rng
      let n := len.getD dflt.toNat
      let st1 := { st with rng := g1 }
      match items with
      | .items ic =>
        (genArraySeq (fun name s => genValueFuel fuel ic name s) field_name 0 n st1).map
          (fun p => (.vList p.1, p.2))
      | .noItems =>
        (genArraySeq (genScalar "str" "word") field_name 0 n st1).map
          (fun p => (.vList p.1, p.2))
    else if type = "object" then
      (genPropSeq (fun pc name s => genValueFuel fuel pc name s) field_name props st).map
        (fun p => (.vObj p.1, p.2))
    else genScalar type rule field_name st

/-- `JSONGenerator._generate_value(field_config, field_name)`. -/
def generate_value (cfg : FieldConfig) (field_name : String) (st : GenState) :
    Except Err (Value × GenState) :=
  genValueFuel cfg.depth cfg field_name st

/-- One record: walk the schema's top-level entries in declaration order,
resolving each under the per-record path `f"\x7bkey\x7d_\x7bi\x7d"`. -/
def genRecordFields (fields : List (String × FieldConfig)) (i : Nat)
    (st : GenState) : Except Err (List (String × Value) × GenState) :=
  match fields with
  | [] => .ok ([], st)
  | (key, cfg) :: rest => do
    let (v, st') ← generate_value cfg (key ++ "_" ++ toString i) st
    let (vs, st'') ← genRecordFields rest i st'
    .ok ((key, v) :: vs, st'')

/-- Records `i, i+1, ...` until `remaining` runs out. -/
def genRecords (i remaining : Nat) (st : GenState) :
    Except Err (List Value × GenState) :=
  match remaining with
  | 0 => .ok ([], st)
  | n + 1 => do
    let (flds, st') ← genRecordFields st.schema i st
    let (objs, st'') ← genRecords (i + 1) n st'
    .ok (.vObj flds :: objs, st'')

/-- `JSONGenerator.generate(count)` (structured form; serialization of the
`as_string` variant is out of scope per the spec). -/
def generate (count : Nat) (st : GenState) : Except Err (List Value × GenState) :=
  genRecords 0 count st

/-- `generate_single()` = `generate(1)[0]`. -/
def generate_single (st : GenState) : Except Err (Value × GenState) :=
  (generate 1 st).bind (fun p =>
    match p.1 with
    | v :: _ => .ok (v, p.2)
    | [] => .error "IndexError: list index out of range")

/-- The field named `key` of a generated record. -/
def objField (v : Value) (key : String) : Option Value :=
  match v with
  | .vObj fields => fields.lookup key
  | _ => none

/-! ## Auxiliary definitions used by the verification statements -/

/-- The constant random stream. -/
def constStream (k : Nat) : Rng := fun _ => k

/-- The identity random stream `0, 1, 2, ...`. -/
def natStream : Rng := fun n => n

/-- A concrete generator state with empty registries, the constant-5
stream, and clock 1723 (an arbitrary timestamp ending in `23`). -/
def st0 : GenState :=
  { schema := [], custom_rules := [], file_data := [], generated_values := [],
    rng := constStream 5, now := 1723 }

/-- A concrete generator state drawing the identity stream. -/
def stNat : GenState :=
  { schema := [], custom_rules := [], file_data := [], generated_values := [],
    rng := natStream, now := 1723 }

/-- `n` successive calls to the uniqueness tracker for one field path,
collecting the returned values. -/
def uniqueCalls (digits : Nat) (field_name : String) :
    Nat → GenState → Except Err (List Int × GenState)
  | 0, st => .ok ([], st)
  | n + 1, st => do
    let (v, st') ← unique_number digits field_name st
    let (vs, st'') ← uniqueCalls digits field_name n st'
    .ok (v :: vs, st'')

/-- Whether each of `n` successive tracker calls finds a non-colliding draw
within its 1000-attempt retry budget (i.e. none of them takes the
timestamp-suffix fallback path). -/
def callsSucceed (digits : Nat) (field_name : String) :
    Nat → GenState → Bool
  | 0, _ => true
  | n + 1, st =>
    match drawLoop 1000 (uniqueMin digits) (uniqueMax digits)
        (usedValues st field_name) st.rng with
    | (some _, _) =>
      match unique_number digits field_name st with
      | .ok (_, st') => callsSucceed digits field_name n st'
      | .error _ => false
    | (none, _) => false

/-- The two-field schema of the uniqueness claim: an `int` field under the
rule `@\x7b4\x7dunique` next to a plain `bool` field. -/
def schemaC1 : List (String × FieldConfig) :=
  [("id", scalarCfg "int" "@\x7b4\x7dunique"),
   ("active", scalarCfg "bool" "bool")]

/-- That schema installed over the constant-0 stream. -/
def stC1 : GenState :=
  { schema := schemaC1, custom_rules := [], file_data := [],
    generated_values := [], rng := constStream 0, now := 1723 }

/-! ## Helper lemmas -/

theorem randintT_le_left {a b : Int} (g : Rng) (h : a ≤ b) :
    a ≤ (randintT a b g).1 := by
  have h0 : (0 : Int) < b - a + 1 := by omega
  have := Int.emod_nonneg ((g 0 : Nat) : Int) (by omega : b - a + 1 ≠ 0)
  simp only [randintT, randRaw]
  omega

theorem randintT_le_right {a b : Int} (g : Rng) (h : a ≤ b) :
    (randintT a b g).1 ≤ b := by
  have h0 : (0 : Int) < b - a + 1 := by omega
  have := Int.emod_lt_of_pos ((g 0 : Nat) : Int) h0
  simp only [randintT, randRaw]
  omega

theorem pyRandint_eq_ok {a b : Int} (g : Rng) (h : a ≤ b) :
    pyRandint a b g = .ok (randintT a b g) := by
  simp [pyRandint, h]

theorem random01_nonneg (g : Rng) : 0 ≤ (random01 g).1 := by
  simp only [random01, randRaw]
  positivity

theorem random01_lt_one (g : Rng) : (random01 g).1 < 1 := by
  simp only [random01, randRaw]
  rw [div_lt_one (by positivity)]
  exact_mod_cast Nat.cast_lt.mpr (Nat.mod_lt _ (by positivity))

theorem uniformT_mem {a b : ℚ} (g : Rng) (h : a ≤ b) :
    a ≤ (uniformT a b g).1 ∧ (uniformT a b g).1 ≤ b := by
  simp only [uniformT]
  constructor
  · nlinarith [random01_nonneg g, random01_lt_one g]
  · nlinarith [random01_nonneg g, random01_lt_one g]

theorem choiceT_mem {α : Type} (l : List α) (dflt : α) (g : Rng)
    (h : l ≠ []) : (choiceT l dflt g).1 ∈ l := by
  simp only [choiceT, randRaw]
  have hlen : 0 < l.length := List.length_pos.mpr h
  have hidx : g 0 % l.length < l.length := Nat.mod_lt _ hlen
  rw [List.getD_eq_getElem l dflt hidx]
  exact List.getElem_mem hidx

theorem choicesT_length {α : Type} (l : List α) (dflt : α) (k : Nat) (g : Rng) :
    (choicesT l dflt k g).1.length = k := by
  induction k generalizing g with
  | zero => simp [choicesT]
  | succ n ih => simp [choicesT, ih]

theorem choiceT_mem_or_default {α : Type} (l : List α) (dflt : α) (g : Rng) :
    (choiceT l dflt g).1 ∈ l ∨ (choiceT l dflt g).1 = dflt := by
  simp only [choiceT, randRaw]
  by_cases h : g 0 % l.length < l.length
  · left
    rw [List.getD_eq_getElem l dflt h]
    exact List.getElem_mem h
  · right
    exact List.getD_eq_default l dflt (by omega)

theorem choicesT_forall {α : Type} (l : List α) (dflt : α) (k : Nat) (g : Rng)
    (P : α → Prop) (hl : ∀ c ∈ l, P c) (hd : P dflt) :
    ∀ c ∈ (choicesT l dflt k g).1, P c := by
  induction k generalizing g with
  | zero => simp [choicesT]
  | succ n ih =>
    simp only [choicesT, List.mem_cons]
    rintro c (rfl | hc)
    · rcases choiceT_mem_or_default l dflt g with h | h
      · exact hl _ h
      · rw [h]
        exact hd
    · exact ih _ c hc

theorem digit_chars_not_special {d : Char} (h : d.isDigit = true) :
    d ≠ 'A' ∧ d ≠ 'a' ∧ d ≠ '?' := by
  refine ⟨?_, ?_, ?_⟩ <;> rintro rfl <;> exact absurd h (by decide)

theorem pyIntOfStr_digits {s : String} (h1 : s.data ≠ [])
    (h2 : s.data.all Char.isDigit = true) :
    pyIntOfStr s = .ok ((digitsToNat s.data : Nat) : Int) := by
  unfold pyIntOfStr
  split
  · next rest heq =>
    exfalso
    rw [heq] at h2
    simp only [List.all_cons, Bool.and_eq_true] at h2
    exact absurd h2.1 (by decide)
  · next rest heq =>
    exfalso
    rw [heq] at h2
    simp only [List.all_cons, Bool.and_eq_true] at h2
    exact absurd h2.1 (by decide)
  · simp [h1, h2, Except.map, pure, Except.pure, bind, Except.bind]

theorem prefix_head {a : Char} {p after : List Char}
    (h : (a :: p).isPrefixOf after = true) : ∃ t, after = a :: t := by
  cases after with
  | nil => simp [List.isPrefixOf] at h
  | cons b t =>
    simp only [List.isPrefixOf, Bool.and_eq_true, beq_iff_eq] at h
    exact ⟨t, by rw [h.1]⟩

theorem matchUnique_split {rule : String} {ps : List String}
    (h : matchUnique rule = some ps) :
    ∃ pl after, openerSplit rule = some (pl, after) ∧
      ∃ t, after = 'u' :: t := by
  unfold matchUnique at h
  split at h
  · next pl after heq =>
    split at h
    · next hcond =>
      refine ⟨pl, after, heq, ?_⟩
      have h2 := hcond.2.2
      rw [show "unique".data = 'u' :: "nique".data from rfl] at h2
      exact prefix_head h2
    · exact absurd h (by simp)
  · exact absurd h (by simp)

theorem matchLength_split {rule : String} {ps : List String}
    (h : matchLength rule = some ps) :
    ∃ pl after, openerSplit rule = some (pl, after) ∧
      ∃ t, after = 'l' :: t := by
  unfold matchLength at h
  split at h
  · next pl after heq =>
    split at h
    · next hcond =>
      refine ⟨pl, after, heq, ?_⟩
      have h2 := hcond.2.2
      rw [show "length".data = 'l' :: "ength".data from rfl] at h2
      exact prefix_head h2
    · exact absurd h (by simp)
  · exact absurd h (by simp)

theorem matchChoice_split {rule : String} {ps : List String}
    (h : matchChoice rule = some ps) :
    ∃ pl after, openerSplit rule = some (pl, after) ∧
      ∃ t, after = 'c' :: t := by
  unfold matchChoice at h
  split at h
  · next pl after heq =>
    split at h
    · next hcond =>
      refine ⟨pl, after, heq, ?_⟩
      have h2 := hcond.2
      rw [show "choice".data = 'c' :: "hoice".data from rfl] at h2
      exact prefix_head h2
    · exact absurd h (by simp)
  · exact absurd h (by simp)

theorem matchFormat_split {rule : String} {ps : List String}
    (h : matchFormat rule = some ps) :
    ∃ pl after, openerSplit rule = some (pl, after) ∧
      ∃ t, after = 'f' :: t := by
  unfold matchFormat at h
  split at h
  · next pl after heq =>
    split at h
    · next hcond =>
      refine ⟨pl, after, heq, ?_⟩
      have h2 := hcond.2
      rw [show "format".data = 'f' :: "ormat".data from rfl] at h2
      exact prefix_head h2
    · exact absurd h (by simp)
  · exact absurd h (by simp)

theorem matchRange_split {rule : String} {ps : List String}
    (h : matchRange rule = some ps) :
    ∃ pl after, openerSplit rule = some (pl, after) ∧
      ∃ t, after = 'r' :: t := by
  unfold matchRange at h
  split at h
  · next pl after heq =>
    split at h
    · split at h
      · next hcond =>
        refine ⟨pl, after, heq, ?_⟩
        have h2 := hcond.2.2.2
        rw [show "range".data = 'r' :: "ange".data from rfl] at h2
        exact prefix_head h2
      · exact absurd h (by simp)
    · exact absurd h (by simp)
  · exact absurd h (by simp)

theorem both_prefix_clash {rule : String} {a b : Char}
    (h1 : ∃ pl after, openerSplit rule = some (pl, after) ∧
      ∃ t, after = a :: t)
    (h2 : ∃ pl after, openerSplit rule = some (pl, after) ∧
      ∃ t, after = b :: t)
    (hab : a ≠ b) : False := by
  obtain ⟨p1, af1, he1, s1, rfl⟩ := h1
  obtain ⟨p2, af2, he2, s2, rfl⟩ := h2
  rw [he1] at he2
  have hsnd := congrArg Prod.snd (Option.some.inj he2)
  exact hab (List.cons.inj hsnd).1

theorem indicator_sum_le_one (rule : String) :
    (matchUnique rule).isSome.toNat + (matchRange rule).isSome.toNat +
      (matchLength rule).isSome.toNat + (matchChoice rule).isSome.toNat +
      (matchFormat rule).isSome.toNat ≤ 1 := by
  cases hu : matchUnique rule <;> cases hr : matchRange rule <;>
  cases hl : matchLength rule <;> cases hc : matchChoice rule <;>
  cases hf : matchFormat rule <;>
  simp only [Option.isSome_none, Option.isSome_some, Bool.toNat_false,
    Bool.toNat_true, Nat.add_zero, Nat.zero_add] <;>
  first
  | omega
  | exact absurd (both_prefix_clash (matchUnique_split hu)
      (matchRange_split hr) (by decide)) not_false
  | exact absurd (both_prefix_clash (matchUnique_split hu)
      (matchLength_split hl) (by decide)) not_false
  | exact absurd (both_prefix_clash (matchUnique_split hu)
      (matchChoice_split hc) (by decide)) not_false
  | exact absurd (both_prefix_clash (matchUnique_split hu)
      (matchFormat_split hf) (by decide)) not_false
  | exact absurd (both_prefix_clash (matchRange_split hr)
      (matchLength_split hl) (by decide)) not_false
  | exact absurd (both_prefix_clash (matchRange_split hr)
      (matchChoice_split hc) (by decide)) not_false
  | exact absurd (both_prefix_clash (matchRange_split hr)
      (matchFormat_split hf) (by decide)) not_false
  | exact absurd (both_prefix_clash (matchLength_split hl)
      (matchChoice_split hc) (by decide)) not_false
  | exact absurd (both_prefix_clash (matchLength_split hl)
      (matchFormat_split hf) (by decide)) not_false
  | exact absurd (both_prefix_clash (matchChoice_split hc)
      (matchFormat_split hf) (by decide)) not_false

theorem matchers_exclusive (rule : String) :
    builtin_patterns.countP (fun km => (km.2 rule).isSome) ≤ 1 := by
  have key := indicator_sum_le_one rule
  simp only [builtin_patterns, List.countP_cons, List.countP_nil]
  simp only [show ∀ b : Bool, (if b = true then (1 : Nat) else 0) = b.toNat
    from fun b => by cases b <;> rfl]
  omega

theorem findSome?_perm_of_atMostOne {α β : Type} {l₁ l₂ : List α}
    (f : α → Option β) (hp : l₁.Perm l₂) :
    l₁.countP (fun x => (f x).isSome) ≤ 1 →
      l₁.findSome? f = l₂.findSome? f := by
  induction hp with
  | nil => intro _; rfl
  | cons x p ih =>
    intro hs
    simp only [List.findSome?]
    cases hfx : f x with
    | some b => rfl
    | none =>
      apply ih
      rw [List.countP_cons, hfx] at hs
      simpa using hs
  | swap x y l =>
    intro hs
    simp only [List.findSome?]
    cases hfx : f x with
    | some a =>
      cases hfy : f y with
      | some b =>
        exfalso
        rw [List.countP_cons, List.countP_cons, hfx, hfy] at hs
        simp at hs
      | none => rfl
    | none =>
      cases hfy : f y with
      | some b => rfl
      | none => rfl
  | trans p1 p2 ih1 ih2 =>
    intro hs
    rw [ih1 hs, ih2 (by rw [← p1.countP_eq]; exact hs)]

theorem takeWhile_eq_self_of_all {p : Char → Bool} {l : List Char}
    (h : l.all p = true) : l.takeWhile p = l := by
  induction l with
  | nil => rfl
  | cons a t ih =>
    simp only [List.all_cons, Bool.and_eq_true] at h
    simp [List.takeWhile, h.1, ih h.2]

theorem dropWhile_eq_nil_of_all {p : Char → Bool} {l : List Char}
    (h : l.all p = true) : l.dropWhile p = [] := by
  induction l with
  | nil => rfl
  | cons a t ih =>
    simp only [List.all_cons, Bool.and_eq_true] at h
    simp [List.dropWhile, h.1, ih h.2]

theorem all_takeWhile_digits (l : List Char) :
    (l.takeWhile Char.isDigit).all Char.isDigit = true := by
  induction l with
  | nil => rfl
  | cons a t ih =>
    by_cases h : a.isDigit = true
    · simp [List.takeWhile, h, ih]
    · simp only [Bool.not_eq_true] at h
      simp [List.takeWhile, h]

theorem parseUnsigned_digits {t : List Char} (h1 : t ≠ [])
    (h2 : t.all Char.isDigit = true) :
    parseUnsigned t = some ((digitsToNat t : Nat) : ℚ) := by
  unfold parseUnsigned
  rw [dropWhile_eq_nil_of_all h2, takeWhile_eq_self_of_all h2]
  simp [h1]

theorem parseDecimal_digits {l : List Char} (h1 : l ≠ [])
    (h2 : l.all Char.isDigit = true) :
    parseDecimal l = some ((digitsToNat l : Nat) : ℚ) := by
  unfold parseDecimal
  split
  · simp only [List.all_cons, Bool.and_eq_true] at h2
    exact absurd h2.1 (by decide)
  · simp only [List.all_cons, Bool.and_eq_true] at h2
    exact absurd h2.1 (by decide)
  · exact parseUnsigned_digits h1 h2

theorem pyFloatOfStr_digits {s : String} (h1 : s.data ≠ [])
    (h2 : s.data.all Char.isDigit = true) :
    pyFloatOfStr s = .ok ((digitsToNat s.data : Nat) : ℚ) := by
  unfold pyFloatOfStr
  rw [parseDecimal_digits h1 h2]

theorem parse_rule_range {rule mns mxs : String}
    (h : parse_rule rule = ("range", [mns, mxs])) :
    matchRange rule = some [mns, mxs] := by
  unfold parse_rule parse_rule_with at h
  by_cases hsw : startsWithOpener rule
  · rw [if_pos hsw] at h
    simp only [builtin_patterns, List.findSome?_cons, List.findSome?_nil] at h
    cases hu : matchUnique rule with
    | some ps =>
      rw [hu] at h
      simp only [Option.map_some', Prod.mk.injEq] at h
      exact absurd h.1 (by decide)
    | none =>
      rw [hu] at h
      simp only [Option.map_none'] at h
      cases hr : matchRange rule with
      | some ps =>
        rw [hr] at h
        simp only [Option.map_some', Prod.mk.injEq, true_and] at h
        rw [h]
      | none =>
        exfalso
        rw [hr] at h
        simp only [Option.map_none'] at h
        cases hl : matchLength rule with
        | some ps =>
          rw [hl] at h
          simp only [Option.map_some', Prod.mk.injEq] at h
          exact absurd h.1 (by decide)
        | none =>
          rw [hl] at h
          simp only [Option.map_none'] at h
          cases hc : matchChoice rule with
          | some ps =>
            rw [hc] at h
            simp only [Option.map_some', Prod.mk.injEq] at h
            exact absurd h.1 (by decide)
          | none =>
            rw [hc] at h
            simp only [Option.map_none'] at h
            cases hf : matchFormat rule with
            | some ps =>
              rw [hf] at h
              simp only [Option.map_some', Prod.mk.injEq] at h
              exact absurd h.1 (by decide)
            | none =>
              rw [hf] at h
              simp only [Option.map_none', Prod.mk.injEq] at h
              exact absurd h.2 (by simp)
  · rw [if_neg hsw] at h
    simp only [Prod.mk.injEq] at h
    exact absurd h.2 (by simp)

theorem matchRange_digits {rule : String} {a b : String}
    (h : matchRange rule = some [a, b]) :
    a.data ≠ [] ∧ a.data.all Char.isDigit = true ∧
      b.data ≠ [] ∧ b.data.all Char.isDigit = true := by
  unfold matchRange at h
  split at h
  · next pl after heq =>
    split at h
    · split at h
      · next hcond =>
        have hinj := Option.some.inj h
        have ha : a = String.mk (pl.takeWhile Char.isDigit) :=
          (List.cons.inj hinj).1.symm
        have hb : b = String.mk ‹List Char› := by
          exact ((List.cons.inj (List.cons.inj hinj).2).1).symm
        subst ha
        subst hb
        exact ⟨hcond.1, all_takeWhile_digits pl, hcond.2.1, hcond.2.2.1⟩
      · exact absurd h (by simp)
    · exact absurd h (by simp)
  · exact absurd h (by simp)

/-- C5: the rule parser's behaviour on the five canonical examples:
parametric `unique`, `range` and `choice` expressions are decomposed into
kind and parameter substrings, a plain word maps to itself with no
parameters, and a malformed `@\x7b`-prefixed string falls back to itself
with no parameters. -/
theorem C5_parse_rule_examples :
    parse_rule "@\x7b5\x7dunique" = ("unique", ["5"]) ∧
    parse_rule "@\x7b18-80\x7drange" = ("range", ["18", "80"]) ∧
    parse_rule "@\x7ba,b,c\x7dchoice" = ("choice", ["a,b,c"]) ∧
    parse_rule "plainword" = ("plainword", []) ∧
    parse_rule "@\x7bmalformed" = ("@\x7bmalformed", []) :=
  ⟨rfl, rfl, rfl, rfl, rfl⟩

/-- C6: for every rule string, at most one of the five parametric kind
patterns matches (their distinct literal suffixes after the first `\x7d`
exclude each other), and consequently `_parse_rule` returns the same
result whatever order the pattern dictionary is iterated in. -/
theorem C6_patterns_exclusive_order_independent (rule : String) :
    builtin_patterns.countP (fun km => (km.2 rule).isSome) ≤ 1 ∧
    ∀ order : List (String × (String → Option (List String))),
      order.Perm builtin_patterns →
        parse_rule_with order rule = parse_rule rule := by
  refine ⟨matchers_exclusive rule, ?_⟩
  intro order hperm
  unfold parse_rule parse_rule_with
  by_cases hsw : startsWithOpener rule
  · rw [if_pos hsw, if_pos hsw]
    have hcong : builtin_patterns.countP
        (fun km => ((km.2 rule).map (fun ps => (km.1, ps))).isSome)
        = builtin_patterns.countP (fun km => (km.2 rule).isSome) := by
      apply List.countP_congr
      intro km _
      cases km2 : km.2 rule <;> simp
    have hcnt : order.countP
        (fun km => ((km.2 rule).map (fun ps => (km.1, ps))).isSome) ≤ 1 := by
      rw [hperm.countP_eq, hcong]
      exact matchers_exclusive rule
    rw [findSome?_perm_of_atMostOne _ hperm hcnt]
  · rw [if_neg hsw, if_neg hsw]

theorem upper_not_special {u : Char} (h : u.isUpper = true) :
    u ≠ 'a' ∧ u ≠ '?' := by
  refine ⟨?_, ?_⟩ <;> rintro rfl <;> exact absurd h (by decide)

theorem lower_not_special {l : Char} (h : l.isLower = true) : l ≠ '?' := by
  rintro rfl
  exact absurd h (by decide)

theorem digitChar_isDigit {n : Nat} (h : n < 10) :
    (Nat.digitChar n).isDigit = true := by
  interval_cases n <;> decide

theorem pyReplace_quad (t : List Char) (d u l q : Char)
    (hd : d.isDigit = true) (hu : u.isUpper = true) (hl : l.isLower = true) :
    pyReplace (pyReplace (pyReplace (pyReplace t '#' d) 'A' u) 'a' l) '?' q
      = t.map (fun c => if c = '#' then d else if c = 'A' then u
          else if c = 'a' then l else if c = '?' then q else c) := by
  simp only [pyReplace, List.map_map]
  apply List.map_congr_left
  intro c _
  obtain ⟨hd1, hd2, hd3⟩ := digit_chars_not_special hd
  obtain ⟨hu1, hu2⟩ := upper_not_special hu
  have hl1 := lower_not_special hl
  simp only [Function.comp]
  by_cases h1 : c = '#'
  · subst h1
    simp [hd1, hd2, hd3]
  · by_cases h2 : c = 'A'
    · subst h2
      simp [hu1, hu2]
    · by_cases h3 : c = 'a'
      · subst h3
        simp [hl1]
      · by_cases h4 : c = '?'
        · subst h4
          simp
        · simp [h1, h2, h3, h4]

/-- The format templater draws one digit, one uppercase letter, one
lowercase letter and one letter, and substitutes each for all occurrences
of its placeholder character; every other character passes through. -/
theorem apply_format_spec (t : String) (g : Rng) :
    ∃ d u l q : Char, d.isDigit = true ∧ u.isUpper = true ∧
      l.isLower = true ∧ q.isAlpha = true ∧
      (apply_format t g).1.data = t.data.map (fun c =>
        if c = '#' then d else if c = 'A' then u else if c = 'a' then l
        else if c = '?' then q else c) := by
  have hd : (Nat.digitChar (randintT 0 9 g).1.toNat).isDigit = true := by
    apply digitChar_isDigit
    have h1 := randintT_le_left g (by norm_num : (0 : ℤ) ≤ 9)
    have h2 := randintT_le_right g (by norm_num : (0 : ℤ) ≤ 9)
    omega
  have hupper := List.all_eq_true.mp
    (show asciiUppercase.all Char.isUpper = true from rfl)
  have hlower := List.all_eq_true.mp
    (show asciiLowercase.all Char.isLower = true from rfl)
  have halpha := List.all_eq_true.mp
    (show asciiLetters.all Char.isAlpha = true from rfl)
  have hu : ((choiceT asciiUppercase 'A' (randintT 0 9 g).2).1).isUpper = true := by
    rcases choiceT_mem_or_default asciiUppercase 'A' (randintT 0 9 g).2 with h | h
    · exact hupper _ h
    · rw [h]
      decide
  have hl : ((choiceT asciiLowercase 'a'
      (choiceT asciiUppercase 'A' (randintT 0 9 g).2).2).1).isLower = true := by
    rcases choiceT_mem_or_default asciiLowercase 'a'
      (choiceT asciiUppercase 'A' (randintT 0 9 g).2).2 with h | h
    · exact hlower _ h
    · rw [h]
      decide
  have hq : ((choiceT asciiLetters 'a' (choiceT asciiLowercase 'a'
      (choiceT asciiUppercase 'A' (randintT 0 9 g).2).2).2).1).isAlpha = true := by
    rcases choiceT_mem_or_default asciiLetters 'a' (choiceT asciiLowercase 'a'
      (choiceT asciiUppercase 'A' (randintT 0 9 g).2).2).2 with h | h
    · exact halpha _ h
    · rw [h]
      decide
  refine ⟨_, _, _, _, hd, hu, hl, hq, ?_⟩
  simp only [apply_format]
  exact pyReplace_quad t.data _ _ _ _ hd hu hl

/-- C2 (amended): all occurrences of one placeholder character in a
template receive the same single drawn replacement (the templater uses
`str.replace`, which substitutes one drawn value everywhere), drawn from
the right alphabet per placeholder; non-placeholder characters pass
through unchanged. -/
theorem C2_format_shared_draws (t : String) (g : Rng) :
    ∃ d u l q : Char, d.isDigit = true ∧ u.isUpper = true ∧
      l.isLower = true ∧ q.isAlpha = true ∧
      (apply_format t g).1.data = t.data.map (fun c =>
        if c = '#' then d else if c = 'A' then u else if c = 'a' then l
        else if c = '?' then q else c) :=
  apply_format_spec t g

/-- C2 counterexample: the claim that two occurrences of the same
placeholder may receive different values is false — for the template
`"##"` the two output characters are equal under every random stream, so
the occurrences provably share one drawn value. -/
theorem C2_format_counterexample :
    ¬ ∃ (g : Rng) (c1 c2 : Char),
        (apply_format "##" g).1.data = [c1, c2] ∧ c1 ≠ c2 := by
  rintro ⟨g, c1, c2, hdata, hne⟩
  obtain ⟨d, u, l, q, _, _, _, _, hmap⟩ := apply_format_spec "##" g
  rw [hdata] at hmap
  simp [show "##".data = ['#', '#'] from rfl] at hmap
  exact hne (hmap.1.trans hmap.2.symm)

theorem ok_bind {α β : Type} (x : α) (f : α → Except Err β) :
    (do let y ← (Except.ok x : Except Err α); f y) = f x := rfl

/-- C3: for a field whose rule parses as a `range` rule with parameters
`mns`, `mxs` (necessarily digit strings, by the pattern grammar) with
min ≤ max, the value produced by the range branch (§4.3 step 3, before
declared-type coercion) is a real number within `[min, max]` when the
declared type is `float`/`double`, and an integer within `[min, max]`
inclusive for every other declared type. -/
theorem C3_range_rule_bounds (ftype rule mns mxs : String) (st : GenState)
    (hparse : parse_rule rule = ("range", [mns, mxs]))
    (hle : digitsToNat mns.data ≤ digitsToNat mxs.data) :
    ((ftype = "float" ∨ ftype = "double") →
      ∃ q st', rangeValue ftype mns mxs st = .ok (.vFloat q, st') ∧
        ((digitsToNat mns.data : Nat) : ℚ) ≤ q ∧
        q ≤ ((digitsToNat mxs.data : Nat) : ℚ)) ∧
    (ftype ≠ "float" → ftype ≠ "double" →
      ∃ n st', rangeValue ftype mns mxs st = .ok (.vInt n, st') ∧
        ((digitsToNat mns.data : Nat) : ℤ) ≤ n ∧
        n ≤ ((digitsToNat mxs.data : Nat) : ℤ)) := by
  obtain ⟨ha1, ha2, hb1, hb2⟩ := matchRange_digits (parse_rule_range hparse)
  have habZ : ((digitsToNat mns.data : Nat) : ℤ) ≤ ((digitsToNat mxs.data : Nat) : ℤ) := by
    exact_mod_cast hle
  constructor
  · intro hf
    have hnint : ftype ≠ "int" := by
      rcases hf with rfl | rfl <;> decide
    unfold rangeValue
    rw [if_neg hnint, if_pos hf]
    rw [pyFloatOfStr_digits ha1 ha2, ok_bind, pyFloatOfStr_digits hb1 hb2, ok_bind]
    have hmem := @uniformT_mem ((digitsToNat mns.data : Nat) : ℚ)
      ((digitsToNat mxs.data : Nat) : ℚ) st.rng (by exact_mod_cast hle)
    exact ⟨_, _, rfl, hmem.1, hmem.2⟩
  · intro hf1 hf2
    unfold rangeValue
    by_cases hi : ftype = "int"
    · rw [if_pos hi]
      rw [pyIntOfStr_digits ha1 ha2, ok_bind, pyIntOfStr_digits hb1 hb2, ok_bind]
      rw [pyRandint_eq_ok st.rng habZ, ok_bind]
      exact ⟨_, _, rfl, randintT_le_left st.rng habZ, randintT_le_right st.rng habZ⟩
    · rw [if_neg hi, if_neg (fun hor => hor.elim hf1 hf2)]
      rw [pyIntOfStr_digits ha1 ha2, ok_bind, pyIntOfStr_digits hb1 hb2, ok_bind]
      rw [pyRandint_eq_ok st.rng habZ, ok_bind]
      exact ⟨_, _, rfl, randintT_le_left st.rng habZ, randintT_le_right st.rng habZ⟩

/-- C3 witness: the theorem applied to the rule `@\x7b18-80\x7drange` with
declared type `int` on a concrete state. -/
theorem C3_range_rule_bounds_witness :
    ∃ n st', rangeValue "int" "18" "80" st0 = .ok (.vInt n, st') ∧
      (18 : ℤ) ≤ n ∧ n ≤ (80 : ℤ) := by
  have h := (C3_range_rule_bounds "int" "@\x7b18-80\x7drange" "18" "80" st0 rfl
    (by decide)).2 (by decide) (by decide)
  simpa [show digitsToNat "18".data = 18 from rfl,
    show digitsToNat "80".data = 80 from rfl] using h

theorem generate_value_scalar (t r : String) (items : ItemsSpec)
    (len : Option Nat) (props : PropList) (fname : String) (st : GenState)
    (h1 : t ≠ "array") (h2 : t ≠ "object") :
    generate_value (.mk t r items len props) fname st = genScalar t r fname st := by
  unfold generate_value
  simp only [FieldConfig.depth]
  simp only [genValueFuel]
  rw [if_neg h1, if_neg h2]

theorem den_one_is_int {q : ℚ} (h : q.den = 1) : ∃ n : ℤ, q = (n : ℚ) :=
  ⟨q.num, by rw [← Rat.num_div_den q, h]; simp⟩

theorem ten_inv_den_ne_one : ¬ (((10 : ℚ) ^ ((0 : Int) - 1)).den = 1) := by
  intro h
  obtain ⟨n, hn⟩ := den_one_is_int h
  have hval : ((10 : ℚ) ^ ((0 : Int) - 1)) = (10 : ℚ)⁻¹ := by norm_num
  rw [hval] at hn
  have h10 : ((n : ℚ)) * 10 = 1 := by
    rw [← hn]
    norm_num
  have hz : n * 10 = 1 := by exact_mod_cast h10
  omega

/-- C10: resolution is not total: a field declaring the rule
`@\x7b0\x7dlength` with any scalar declared type other than `str` raises
(the non-string branch computes `randint(10 ** -1, 10 ** 0 - 1)`, whose
first argument is the non-integral float `0.1`), provided no custom rule
named `length` shadows the branch. -/
theorem C10_zero_length_raises (ftype : String) (items : ItemsSpec)
    (len : Option Nat) (props : PropList) (fname : String) (st : GenState)
    (hstr : ftype ≠ "str") (harr : ftype ≠ "array") (hobj : ftype ≠ "object")
    (hcust : st.custom_rules.lookup "length" = none) :
    ∃ e, generate_value (.mk ftype "@\x7b0\x7dlength" items len props) fname st
      = .error e := by
  rw [generate_value_scalar _ _ _ _ _ _ _ harr hobj]
  refine ⟨"ValueError: non-integer arg for randrange", ?_⟩
  unfold genScalar
  rw [show parse_rule "@\x7b0\x7dlength" = ("length", ["0"]) from rfl]
  show (rawScalarValue ftype "length" ["0"] "@\x7b0\x7dlength" fname st).bind _
    = _
  unfold rawScalarValue
  rw [hcust]
  rw [show builtin_rules.lookup "length" = none from rfl]
  rw [if_neg (by decide : ¬ ("length" = "unique")),
    if_neg (by decide : ¬ ("length" = "range")), if_pos rfl]
  rw [show paramAt0 ["0"] = Except.ok "0" from rfl, ok_bind]
  rw [show pyIntOfStr "0" = Except.ok 0 from rfl, ok_bind]
  unfold lengthValue
  rw [if_neg hstr]
  unfold pyRandintQ
  rw [if_neg (fun hand => ten_inv_den_ne_one hand.1)]
  rfl

/-- C10 witness: the theorem at declared type `int` on a concrete state
with no custom rules. -/
theorem C10_zero_length_raises_witness :
    ∃ e, generate_value (.mk "int" "@\x7b0\x7dlength" .noItems none .nil) "x" st0
      = .error e :=
  C10_zero_length_raises "int" .noItems none .nil "x" st0
    (by decide) (by decide) (by decide) rfl

theorem uniqueMin_le_uniqueMax {digits : Nat} (h : 1 ≤ digits) :
    uniqueMin digits ≤ uniqueMax digits := by
  unfold uniqueMin uniqueMax
  by_cases h1 : digits > 1
  · rw [if_pos h1]
    have hd : digits - 1 + 1 = digits := by omega
    have hp : (10 : ℤ) ^ (digits - 1) * 10 = 10 ^ digits := by
      rw [← pow_succ, hd]
    have hpos : (0 : ℤ) < 10 ^ (digits - 1) := pow_pos (by norm_num) _
    omega
  · rw [if_neg h1]
    have := pow_pos (show (0 : ℤ) < 10 by norm_num) digits
    omega

theorem drawLoop_some {fuel : Nat} {mn mx : Int} {used : List Int} {g g' : Rng}
    {v : Int} (h : drawLoop fuel mn mx used g = (some v, g')) (hle : mn ≤ mx) :
    v ∉ used ∧ mn ≤ v ∧ v ≤ mx := by
  induction fuel generalizing g with
  | zero => simp [drawLoop] at h
  | succ f ih =>
    rw [drawLoop] at h
    by_cases hmem : (randintT mn mx g).1 ∈ used
    · rw [if_pos hmem] at h
      exact ih h
    · rw [if_neg hmem] at h
      have hv : (randintT mn mx g).1 = v := Option.some.inj (congrArg Prod.fst h)
      rw [← hv]
      exact ⟨hmem, randintT_le_left g hle, randintT_le_right g hle⟩

theorem recordValue_lookup (m : List (String × List Int)) (k : String) (v : Int) :
    (recordValue m k v).lookup k = some (v :: (m.lookup k).getD []) := by
  induction m with
  | nil => simp [recordValue, List.lookup]
  | cons p rest ih =>
    obtain ⟨k', vs⟩ := p
    by_cases hk : k' = k
    · subst hk
      simp [recordValue, List.lookup]
    · have hbeq : (k == k') = false := by
        simp [Ne.symm hk]
      simp [recordValue, hk, List.lookup, hbeq, ih]

theorem unique_number_success {digits : Nat} {path : String} {st : GenState}
    {v : Int} {g' : Rng}
    (h : drawLoop 1000 (uniqueMin digits) (uniqueMax digits)
      (usedValues st path) st.rng = (some v, g')) :
    unique_number digits path st = .ok (v, recordState st path v g') := by
  simp only [unique_number]
  rw [h]
  rfl

theorem usedValues_record (st : GenState) (path : String) (v : Int)
    (g' : Rng) :
    usedValues (recordState st path v g') path = v :: usedValues st path := by
  simp [usedValues, recordState, recordValue_lookup]

theorem uniqueCalls_spec (digits : Nat) (path : String) (hd : 1 ≤ digits) :
    ∀ (n : Nat) (st : GenState), callsSucceed digits path n st = true →
      ∃ vs st', uniqueCalls digits path n st = .ok (vs, st') ∧
        vs.length = n ∧ vs.Nodup ∧
        (∀ v ∈ vs, uniqueMin digits ≤ v ∧ v ≤ uniqueMax digits) ∧
        (∀ v ∈ vs, v ∉ usedValues st path) ∧
        usedValues st' path = vs.reverse ++ usedValues st path := by
  intro n
  induction n with
  | zero =>
    intro st _
    exact ⟨[], st, rfl, rfl, List.nodup_nil, by simp, by simp, by simp⟩
  | succ k ih =>
    intro st hs
    rw [callsSucceed] at hs
    cases hdl : drawLoop 1000 (uniqueMin digits) (uniqueMax digits)
        (usedValues st path) st.rng with
    | mk o g2 =>
      cases o with
      | none =>
        rw [hdl] at hs
        simp at hs
      | some v =>
        rw [hdl] at hs
        have hun := @unique_number_success digits path st v g2 hdl
        rw [hun] at hs
        simp only [] at hs
        obtain ⟨hmem, hlo, hhi⟩ := drawLoop_some hdl (uniqueMin_le_uniqueMax hd)
        obtain ⟨vs, st', heq, hlen, hnd, hbounds, hfresh, hused⟩ := ih _ hs
        have hust1 := usedValues_record st path v g2
        refine ⟨v :: vs, st', ?_, ?_, ?_, ?_, ?_, ?_⟩
        · simp only [uniqueCalls, hun, ok_bind, heq]
        · simp [hlen]
        · rw [List.nodup_cons]
          refine ⟨fun hv => hfresh v hv ?_, hnd⟩
          rw [hust1]
          exact List.mem_cons_self _ _
        · intro u hu
          rcases List.mem_cons.mp hu with rfl | hu2
          · exact ⟨hlo, hhi⟩
          · exact hbounds u hu2
        · intro u hu
          rcases List.mem_cons.mp hu with rfl | hu2
          · exact hmem
          · intro hmem2
            exact hfresh u hu2 (by rw [hust1]; exact List.mem_cons_of_mem _ hmem2)
        · rw [hused, hust1]
          simp

/-- C4 (amended): for digit count D ≥ 1 and N ≤ 10^D, N successive calls
to the uniqueness tracker for one field path return pairwise-distinct
integers within `[10^(D-1), 10^D - 1]` (or `[0, 9]` for D = 1) provided
every call finds a non-colliding draw within its 1000-attempt budget;
when a call exhausts the budget it falls back to a timestamp-based
composite which may lie outside the range or collide. -/
theorem C4_unique_tracker_distinct (digits n : Nat) (path : String)
    (st : GenState) (hd : 1 ≤ digits) (hn : n ≤ 10 ^ digits)
    (hs : callsSucceed digits path n st = true) :
    ∃ vs st', uniqueCalls digits path n st = .ok (vs, st') ∧ vs.length = n ∧
      vs.Nodup ∧ ∀ v ∈ vs, uniqueMin digits ≤ v ∧ v ≤ uniqueMax digits := by
  obtain ⟨vs, st', h1, h2, h3, h4, _, _⟩ := uniqueCalls_spec digits path hd n st hs
  exact ⟨vs, st', h1, h2, h3, h4⟩

/-- C4 witness: two successful calls with digit count 1 on the identity
stream return the distinct in-range values drawn first. -/
theorem C4_unique_tracker_distinct_witness :
    1 ≤ 1 ∧ 2 ≤ 10 ^ 1 ∧
    ∃ vs st', uniqueCalls 1 "id" 2 stNat = .ok (vs, st') ∧ vs.length = 2 ∧
      vs.Nodup ∧ ∀ v ∈ vs, uniqueMin 1 ≤ v ∧ v ≤ uniqueMax 1 :=
  ⟨le_refl 1, by norm_num,
    C4_unique_tracker_distinct 1 2 "id" stNat (le_refl 1) (by norm_num) rfl⟩

set_option maxRecDepth 100000 in
/-- C4 counterexample: with digit count 1 and N = 2 ≤ 10^1, the
constant-5 stream makes the second call exhaust its 1000 retries (every
draw collides with the already-issued 5) and return the timestamp
fallback 23, which lies outside `[0, 9]` — so the unconditional claim is
false. -/
theorem C4_unique_tracker_counterexample :
    (uniqueCalls 1 "id" 2 st0).toOption.map Prod.fst = some [5, 23] ∧
    2 ≤ 10 ^ 1 ∧ ¬ ((23 : ℤ) ≤ uniqueMax 1) :=
  ⟨rfl, by norm_num, by decide⟩

theorem except_ok_bind {α β : Type} (x : α) (f : α → Except Err β) :
    (Except.ok x : Except Err α).bind f = f x := rfl

theorem roundHalfEven_bounds {y : ℚ} (hy0 : 0 ≤ y) (hy1 : y ≤ 10000) :
    0 ≤ roundHalfEven y ∧ roundHalfEven y ≤ 10000 := by
  have hfl : (⌊y⌋ : ℚ) ≤ y := Int.floor_le y
  have hf0 : 0 ≤ ⌊y⌋ := Int.floor_nonneg.mpr hy0
  have hfup : ⌊y⌋ ≤ 10000 := by
    have : (⌊y⌋ : ℚ) ≤ 10000 := le_trans hfl hy1
    exact_mod_cast this
  simp only [roundHalfEven]
  split_ifs with h1 h2 h3
  · exact ⟨hf0, hfup⟩
  · constructor
    · omega
    · have hstrict : (⌊y⌋ : ℚ) < 10000 := by
        have hr : (1 : ℚ) / 2 < y - (⌊y⌋ : ℚ) := h2
        linarith
      have : ⌊y⌋ < 10000 := by exact_mod_cast hstrict
      omega
  · exact ⟨hf0, hfup⟩
  · constructor
    · omega
    · have hr : (1 : ℚ) / 2 ≤ y - (⌊y⌋ : ℚ) := by
        by_contra hcon
        push_neg at hcon
        exact h1 hcon
      have hstrict : (⌊y⌋ : ℚ) < 10000 := by linarith
      have : ⌊y⌋ < 10000 := by exact_mod_cast hstrict
      omega

theorem pyRound2_spec {x : ℚ} (h0 : 0 ≤ x) (h1 : x ≤ 100) :
    0 ≤ pyRound2 x ∧ pyRound2 x ≤ 100 ∧ (pyRound2 x * 100).den = 1 := by
  have hy0 : (0 : ℚ) ≤ x * 100 := by nlinarith
  have hy1 : x * 100 ≤ 10000 := by nlinarith
  obtain ⟨hr0, hr1⟩ := roundHalfEven_bounds hy0 hy1
  have hr0' : (0 : ℚ) ≤ (roundHalfEven (x * 100) : ℚ) := by exact_mod_cast hr0
  have hr1' : ((roundHalfEven (x * 100) : ℤ) : ℚ) ≤ 10000 := by exact_mod_cast hr1
  refine ⟨?_, ?_, ?_⟩
  · unfold pyRound2
    positivity
  · unfold pyRound2
    linarith
  · have heq : pyRound2 x * 100 = ((roundHalfEven (x * 100) : ℤ) : ℚ) := by
      unfold pyRound2
      field_simp
    rw [heq, Rat.den_intCast]

/-- The type-appropriate default value shape of §4.3 step 4: a random
integer in [1, 1000] for `int`, a two-decimal real in [0, 100] for
`float`/`double`, a boolean for `bool`, an 8-letter alphabetic string for
`str`, and null for any other type. -/
def DefaultShape (t : String) (v : Value) : Prop :=
  (t = "int" → ∃ n : ℤ, 1 ≤ n ∧ n ≤ 1000 ∧ v = .vInt n) ∧
  ((t = "float" ∨ t = "double") →
    ∃ q : ℚ, 0 ≤ q ∧ q ≤ 100 ∧ (q * 100).den = 1 ∧ v = .vFloat q) ∧
  (t = "bool" → ∃ b : Bool, v = .vBool b) ∧
  (t = "str" → ∃ s : String, s.length = 8 ∧ s.data.all Char.isAlpha = true ∧
    v = .vStr s) ∧
  (t ∉ (["int", "float", "double", "bool", "str"] : List String) → v = .vNull)

theorem default_value_shape (t : String) (g : Rng) :
    DefaultShape t (generate_default_value t g).1 := by
  unfold generate_default_value
  by_cases h1 : t = "int"
  · subst h1
    rw [if_pos rfl]
    have hle : (1 : ℤ) ≤ 1000 := by norm_num
    refine ⟨fun _ => ⟨(randintT 1 1000 g).1,
      randintT_le_left g hle, randintT_le_right g hle, rfl⟩,
      ?_, ?_, ?_, ?_⟩
    · rintro (h | h) <;> exact absurd h (by decide)
    · intro h
      exact absurd h (by decide)
    · intro h
      exact absurd h (by decide)
    · intro h
      exact (h (by decide)).elim
  · rw [if_neg h1]
    by_cases h2 : t = "float" ∨ t = "double"
    · rw [if_pos h2]
      have hb := @uniformT_mem (0 : ℚ) 100 g (by norm_num)
      obtain ⟨hq0, hq1, hden⟩ := pyRound2_spec hb.1 hb.2
      refine ⟨?_, fun _ => ⟨pyRound2 (uniformT 0 100 g).1, hq0, hq1, hden, rfl⟩,
        ?_, ?_, ?_⟩
      · intro h
        rcases h2 with rfl | rfl <;> exact absurd h (by decide)
      · intro h
        rcases h2 with rfl | rfl <;> exact absurd h (by decide)
      · intro h
        rcases h2 with rfl | rfl <;> exact absurd h (by decide)
      · intro h
        rcases h2 with rfl | rfl <;> exact (h (by decide)).elim
    · rw [if_neg h2]
      by_cases h3 : t = "bool"
      · subst h3
        rw [if_pos rfl]
        refine ⟨fun h => absurd h (by decide), fun h => absurd h h2,
          fun _ => ⟨(choiceT [true, false] true g).1, rfl⟩,
          fun h => absurd h (by decide), fun h => (h (by decide)).elim⟩
      · rw [if_neg h3]
        by_cases h4 : t = "str"
        · subst h4
          rw [if_pos rfl]
          refine ⟨fun h => absurd h (by decide), fun h => absurd h h2,
            fun h => absurd h (by decide), fun _ => ?_,
            fun h => (h (by decide)).elim⟩
          refine ⟨mkStr (choicesT asciiLetters 'a' 8 g).1, ?_, ?_, rfl⟩
          · show (choicesT asciiLetters 'a' 8 g).1.length = 8
            exact choicesT_length asciiLetters 'a' 8 g
          · apply List.all_eq_true.mpr
            intro c hc
            refine choicesT_forall asciiLetters 'a' 8 g
              (fun c => c.isAlpha = true) ?_ (by decide) c hc
            exact List.all_eq_true.mp (show asciiLetters.all Char.isAlpha = true
              from rfl)
        · rw [if_neg h4]
          exact ⟨fun h => absurd h h1, fun h => absurd h h2,
            fun h => absurd h h3, fun h => absurd h h4, fun _ => rfl⟩

theorem convert_default (t : String) (g : Rng) (harr : t ≠ "array")
    (hobj : t ≠ "object") :
    convert_type (generate_default_value t g).1 t
      = .ok (generate_default_value t g).1 := by
  obtain ⟨s1, s2, s3, s4, s5⟩ := default_value_shape t g
  by_cases h1 : t = "int"
  · obtain ⟨n, _, _, hv⟩ := s1 h1
    subst h1
    rw [hv]
    rfl
  · by_cases h2 : t = "float" ∨ t = "double"
    · obtain ⟨q, _, _, _, hv⟩ := s2 h2
      rw [hv]
      unfold convert_type
      rcases h2 with rfl | rfl
      · rfl
      · rfl
    · by_cases h3 : t = "bool"
      · obtain ⟨b, hv⟩ := s3 h3
        subst h3
        rw [hv]
        rfl
      · by_cases h4 : t = "str"
        · obtain ⟨s, _, _, hv⟩ := s4 h4
          subst h4
          rw [hv]
          rfl
        · have hv := s5 (by
            intro hmem
            simp only [List.mem_cons, List.not_mem_nil, or_false] at hmem
            rcases hmem with h | h | h | h | h
            · exact h1 h
            · exact h2 (Or.inl h)
            · exact h2 (Or.inr h)
            · exact h3 h
            · exact h4 h)
          rw [hv]
          unfold convert_type
          rw [if_neg h1, if_neg h2, if_neg h3, if_neg h4]

/-- C8: a field whose rule names no custom rule, no built-in rule, no
parametric kind and no non-empty file-backed dictionary never raises:
resolution returns the type-appropriate default (random integer 1-1000
for `int`, two-decimal real in [0, 100] for `float`/`double`, a boolean
for `bool`, an 8-letter alphabetic string for `str`, null otherwise). -/
theorem C8_unrecognized_rule_default (t r : String) (items : ItemsSpec)
    (len : Option Nat) (props : PropList) (fname : String) (st : GenState)
    (harr : t ≠ "array") (hobj : t ≠ "object")
    (hcust : st.custom_rules.lookup (parse_rule r).1 = none)
    (hbuiltin : builtin_rules.lookup (parse_rule r).1 = none)
    (hkind : (parse_rule r).1 ∉
      (["unique", "range", "length", "choice", "format"] : List String))
    (hfile : (st.file_data.lookup r).getD [] = []) :
    ∃ v st', generate_value (.mk t r items len props) fname st = .ok (v, st') ∧
      DefaultShape t v := by
  simp only [List.mem_cons, List.not_mem_nil, or_false, not_or] at hkind
  obtain ⟨hk1, hk2, hk3, hk4, hk5⟩ := hkind
  rw [generate_value_scalar _ _ _ _ _ _ _ harr hobj]
  unfold genScalar rawScalarValue
  rw [hcust, hbuiltin]
  rw [if_neg hk1, if_neg hk2, if_neg hk3, if_neg hk4, if_neg hk5]
  rw [hfile]
  rw [show (([] : List String).isEmpty) = true from rfl, if_pos rfl]
  rw [except_ok_bind]
  rw [convert_default t st.rng harr hobj]
  exact ⟨_, _, rfl, default_value_shape t st.rng⟩

/-- C8 witness: the theorem applied to the unregistered rule name
`nosuchrule` on an `int` field over a concrete empty-registry state. -/
theorem C8_unrecognized_rule_default_witness :
    ∃ v st', generate_value (.mk "int" "nosuchrule" .noItems none .nil) "x" st0
        = .ok (v, st') ∧ DefaultShape "int" v :=
  C8_unrecognized_rule_default "int" "nosuchrule" .noItems none .nil "x" st0
    (by decide) (by decide) rfl rfl (by decide) rfl

/-- C9: replacing the schema (including setting the same schema again)
empties the uniqueness tracker — so every previously issued unique value
becomes eligible again — while the registered custom rules and the loaded
file-backed dictionaries are left untouched; the operation is idempotent. -/
theorem C9_set_schema_frame (st : GenState)
    (schema : List (String × FieldConfig)) :
    (set_schema schema st).generated_values = [] ∧
    (∀ path, usedValues (set_schema schema st) path = []) ∧
    (set_schema schema st).custom_rules = st.custom_rules ∧
    (set_schema schema st).file_data = st.file_data ∧
    (set_schema schema st).schema = schema ∧
    set_schema schema (set_schema schema st) = set_schema schema st :=
  ⟨rfl, fun _ => rfl, rfl, rfl, rfl, rfl⟩

theorem fracDigits_step (fuel : Nat) (q r : ℚ) (d : ℤ) (hq : q ≠ 0)
    (hd : ⌊q * 10⌋ = d) (hr : q * 10 - (d : ℚ) = r) :
    fracDigits (fuel + 1) q = Nat.digitChar d.toNat :: fracDigits fuel r := by
  simp only [fracDigits]
  rw [if_neg hq, hd, hr]

theorem fracDigits_zero (fuel : Nat) : fracDigits fuel 0 = [] := by
  cases fuel with
  | zero => rfl
  | succ n =>
    simp [fracDigits]

theorem renderFloat_pi5 : renderFloat (3.14159 : ℚ) = "3.14159" := by
  have hlit : (3.14159 : ℚ) = 314159 / 100000 := by norm_num
  rw [hlit]
  simp only [renderFloat]
  rw [abs_of_nonneg (by norm_num : (0:ℚ) ≤ 314159 / 100000)]
  rw [if_neg (by norm_num : ¬ (314159 / 100000 : ℚ) < 0)]
  have hip : ⌊(314159 / 100000 : ℚ)⌋ = 3 := by
    rw [Int.floor_eq_iff]; norm_num
  rw [hip]
  have hfp : (314159 / 100000 : ℚ) - ((3 : ℤ) : ℚ) = 14159 / 100000 := by
    norm_num
  rw [hfp]
  rw [if_neg (by norm_num)]
  rw [show (40 : Nat) = 39 + 1 from rfl,
    fracDigits_step 39 _ (4159 / 10000) 1 (by norm_num)
      (by rw [Int.floor_eq_iff]; norm_num) (by norm_num)]
  rw [show (39 : Nat) = 38 + 1 from rfl,
    fracDigits_step 38 _ (159 / 1000) 4 (by norm_num)
      (by rw [Int.floor_eq_iff]; norm_num) (by norm_num)]
  rw [show (38 : Nat) = 37 + 1 from rfl,
    fracDigits_step 37 _ (59 / 100) 1 (by norm_num)
      (by rw [Int.floor_eq_iff]; norm_num) (by norm_num)]
  rw [show (37 : Nat) = 36 + 1 from rfl,
    fracDigits_step 36 _ (9 / 10) 5 (by norm_num)
      (by rw [Int.floor_eq_iff]; norm_num) (by norm_num)]
  rw [show (36 : Nat) = 35 + 1 from rfl,
    fracDigits_step 35 _ 0 9 (by norm_num)
      (by rw [Int.floor_eq_iff]; norm_num) (by norm_num)]
  rw [fracDigits_zero]
  rfl

theorem convert_str42_int : convert_type (.vStr "42.0") "int" = .ok (.vInt 42) := by
  have hp : pyFloatOfStr "42.0" =
      .ok ((digitsToNat ['4', '2'] : ℚ) + (digitsToNat ['0'] : ℚ) / 10 ^ 1) := rfl
  have hval : ((digitsToNat ['4', '2'] : ℚ) + (digitsToNat ['0'] : ℚ) / 10 ^ 1)
      = 42 := by
    norm_num [digitsToNat, show ('4'.toNat - 48 : Nat) = 4 from rfl,
      show ('2'.toNat - 48 : Nat) = 2 from rfl,
      show ('0'.toNat - 48 : Nat) = 0 from rfl]
  rw [hval] at hp
  have hstep : convert_type (.vStr "42.0") "int"
      = (pyIntOfValue (.vStr "42.0")).map Value.vInt := rfl
  rw [hstep]
  simp only [pyIntOfValue]
  rw [hp]
  have ht : truncQ 42 = 42 := by
    unfold truncQ
    norm_num
  simp [Except.map, ht]

/-- C7: type coercion: `"42.0"` coerced to `int` parses as a real and
truncates to 42; numeric 1 and 0 coerced to `bool` give true and false;
the float 3.14159 coerced to `string` renders as `"3.14159"`; and for the
`array` and `object` target types every value passes through unchanged. -/
theorem C7_convert_type_examples :
    convert_type (.vStr "42.0") "int" = .ok (.vInt 42) ∧
    convert_type (.vInt 1) "bool" = .ok (.vBool true) ∧
    convert_type (.vInt 0) "bool" = .ok (.vBool false) ∧
    convert_type (.vFloat (3.14159 : ℚ)) "str" = .ok (.vStr "3.14159") ∧
    (∀ v, convert_type v "array" = .ok v) ∧
    (∀ v, convert_type v "object" = .ok v) := by
  refine ⟨convert_str42_int, rfl, rfl, ?_, fun v => rfl, fun v => rfl⟩
  have hstep : convert_type (.vFloat (3.14159 : ℚ)) "str"
      = .ok (.vStr (renderFloat (3.14159 : ℚ))) := rfl
  rw [hstep, renderFloat_pi5]

set_option maxRecDepth 100000 in
/-- C1: FAILS on the code: the tracker is keyed by the per-record path
`f"\x7bkey\x7d_\x7bi\x7d"`, so each record draws against a fresh empty set and
values repeat across records.  Under the constant-0 stream, a batch of 50
records for a schema with an `@\x7b4\x7dunique` int field yields the id 1000 in
every record: the ids are not distinct across the batch. -/
theorem C1_unique_rule_not_batchwide :
    (generate 50 stC1).toOption.map
        (fun p => p.1.map (fun r => objField r "id"))
      = some (List.replicate 50 (some (.vInt 1000))) := by rfl

end JsonGen
